import Mathlib

/-!
Shallow embedding of the flashcard application's state logic
(src/reflex_flash_cards/reflex_flash_cards.py).

The Python state class `FlashcardState` becomes a Lean structure; each
event handler becomes a pure function `FlashcardState → FlashcardState`
(the best-effort file persistence `save_flashcards` is an external side
effect with no influence on the in-memory state and is dropped).  Python
string helpers are mirrored on the character-list representation:
`str.strip` becomes `stripStr`, `str.lower` becomes `lowerStr`, and the
substring test `q in s` becomes `pyIn`.  The stable Python builtin
`sorted` with a key becomes `List.mergeSort` (also a stable sort) on the
key order.
-/

/-- A flashcard record, as created by `add_flashcard`:
`{"english": ..., "vietnamese": ..., "learned": ...}`. -/
structure Card where
  english : String
  vietnamese : String
  learned : Bool
deriving DecidableEq, Repr

/-- The mutable state of the application (fields of `FlashcardState`).
`current_index` is a Python `int`, hence modelled as `Int`. -/
structure FlashcardState where
  flashcards : List Card
  current_index : Int
  show_answer : Bool
  new_english : String
  new_vietnamese : String
  filter_learned : Bool
  search_query : String
  sort_alpha : Bool
  view_mode : String
  flipped_cards : List Int
  flipped_words : List String
  temp_word : String
deriving Repr

/-- The initial state: all fields take their Python class defaults. -/
def initState : FlashcardState :=
  { flashcards := []
    current_index := 0
    show_answer := false
    new_english := ""
    new_vietnamese := ""
    filter_learned := false
    search_query := ""
    sort_alpha := false
    view_mode := "single"
    flipped_cards := []
    flipped_words := []
    temp_word := "" }

/-- Python `str.lower()`: lower-case every character. -/
def lowerStr (s : String) : String :=
  ⟨s.data.map Char.toLower⟩

/-- Python `str.strip()`: drop leading and trailing whitespace. -/
def stripStr (s : String) : String :=
  ⟨((s.data.dropWhile Char.isWhitespace).reverse.dropWhile Char.isWhitespace).reverse⟩

/-- Does list `q` occur at the head of list `l`? (helper for `pyIn`). -/
def startsList (q l : List Char) : Bool :=
  match q, l with
  | [], _ => true
  | _ :: _, [] => false
  | a :: as, b :: bs => a == b && startsList as bs

/-- Does list `q` occur contiguously inside list `l`? (helper for `pyIn`). -/
def subList (q l : List Char) : Bool :=
  match l with
  | [] => startsList q []
  | _ :: bs => startsList q l || subList q bs

/-- Python's substring test `q in s`. -/
def pyIn (q s : String) : Bool :=
  subList q.data s.data

/-- Python list indexing `l[i]` with an `int` index: a non-negative index
counts from the front, a negative one from the back, and an out-of-range
index raises (modelled as `none`). -/
def pyGet {α : Type} (l : List α) (i : Int) : Option α :=
  if 0 ≤ i then l[i.toNat]?
  else if 0 ≤ i + l.length then l[(i + l.length).toNat]?
  else none

/-- The comparison key of the Python `sorted(cards, key=...)` call:
order cards by the lower-cased `english` field. -/
def englishLe (a b : Card) : Bool :=
  decide (lowerStr a.english ≤ lowerStr b.english)

/-- The computed var `filtered_flashcards`: when `filter_learned` is set,
keep only the cards that are not learned. -/
def filtered_flashcards (s : FlashcardState) : List Card :=
  if s.filter_learned then s.flashcards.filter (fun card => !card.learned)
  else s.flashcards

/-- The search stage of the computed var `visible_flashcards`: when the
stripped, lowered query is non-empty, keep the cards whose lowered
`english` or lowered `vietnamese` contains it. -/
def searchStage (s : FlashcardState) : List Card :=
  let cards := filtered_flashcards s
  let query := lowerStr (stripStr s.search_query)
  if query ≠ "" then
    cards.filter (fun c => pyIn query (lowerStr c.english) || pyIn query (lowerStr c.vietnamese))
  else cards

/-- The computed var `visible_flashcards`: filter by learned flag, filter
by search query, then (when `sort_alpha`) sort by lower-cased `english`. -/
def visible_flashcards (s : FlashcardState) : List Card :=
  let cards := searchStage s
  if s.sort_alpha then cards.mergeSort englishLe else cards

/-- The computed var `current_card`: `none` on an empty projection, the
element at `current_index` when in range, element 0 as fallback when
`current_index` is at least the projection length. -/
def current_card (s : FlashcardState) : Option Card :=
  let filtered := visible_flashcards s
  if filtered = [] then none
  else if s.current_index ≥ (filtered.length : Int) then filtered[0]?
  else pyGet filtered s.current_index

/-- The index-reconciliation step shared by `add_flashcard` and the
non-empty branch of `remove_current_card`:
`if self.current_index >= len(filtered): self.current_index = max(0, len(filtered) - 1)`. -/
def clampIndex (t : FlashcardState) : FlashcardState :=
  if t.current_index ≥ ((visible_flashcards t).length : Int) then
    { t with current_index := max 0 (((visible_flashcards t).length : Int) - 1) }
  else t

/-- Event handler `add_flashcard`: if both stripped inputs are non-empty,
append the new card, clear the input buffers, and clamp `current_index`
against the recomputed projection; otherwise do nothing. -/
def add_flashcard (s : FlashcardState) : FlashcardState :=
  if stripStr s.new_english ≠ "" ∧ stripStr s.new_vietnamese ≠ "" then
    clampIndex
      { s with flashcards := s.flashcards ++
                 [{ english := stripStr s.new_english
                    vietnamese := stripStr s.new_vietnamese
                    learned := false }]
               new_english := ""
               new_vietnamese := "" }
  else s

/-- Event handler `remove_current_card`: when a current card exists, keep
only the cards not structurally equal to it, then reconcile
`current_index` against the recomputed projection. -/
def remove_current_card (s : FlashcardState) : FlashcardState :=
  match current_card s with
  | none => s
  | some current =>
    let s1 := { s with flashcards := s.flashcards.filter (fun card => card != current) }
    if visible_flashcards s1 ≠ [] then clampIndex s1
    else { s1 with current_index := 0 }

/-- The loop body of `toggle_learned`: negate the `learned` flag of the
first card in the list structurally equal to `current` (the Python `for`
with `break`). -/
def toggleFirst : List Card → Card → List Card
  | [], _ => []
  | card :: rest, current =>
    if card = current then { card with learned := !card.learned } :: rest
    else card :: toggleFirst rest current

/-- Event handler `toggle_learned`: when a current card exists, flip the
`learned` flag of the first structurally equal card of the deck. -/
def toggle_learned (s : FlashcardState) : FlashcardState :=
  match current_card s with
  | none => s
  | some current => { s with flashcards := toggleFirst s.flashcards current }

/-- Event handler `toggle_view_mode`: switch between "single" and "grid",
hide the answer, and clear the index-based flipped list. -/
def toggle_view_mode (s : FlashcardState) : FlashcardState :=
  { s with view_mode := if s.view_mode = "single" then "grid" else "single"
           show_answer := false
           flipped_cards := [] }

/-- Event handler `toggle_filter`: flip `filter_learned`, reset the cursor
to 0 and hide the answer. -/
def toggle_filter (s : FlashcardState) : FlashcardState :=
  { s with filter_learned := !s.filter_learned
           current_index := 0
           show_answer := false }

/-- The flip test of the grid renderer `_grid_card`:
`FlashcardState.flipped_words.contains(english_word)` decides whether a
card is drawn flipped, so `flipped_words` is the collection the grid view
consults. -/
def grid_card_is_flipped (s : FlashcardState) (card : Card) : Bool :=
  s.flipped_words.contains card.english

/-- A sample card used by concrete witnesses and counterexamples. -/
def cardCat : Card := { english := "cat", vietnamese := "con meo", learned := false }

/-- A second sample card, marked learned. -/
def cardDog : Card := { english := "dog", vietnamese := "con cho", learned := true }

/-!  Theorems.  Each claim of the specification is settled below; helper
lemmas shared between claims come first. -/

/-- C2 (counterexample): `toggle_view_mode` does not reset the cursor.
Starting from a state whose cursor sits at 5, switching the view mode
leaves the cursor at 5, contradicting the claim that `current_index`
equals 0 after the toggle. -/
theorem toggle_view_mode_keeps_index_cex :
    (toggle_view_mode { initState with current_index := 5 }).current_index ≠ 0 := by
  decide

/-- C2 (amended): `toggle_filter` resets the cursor to 0 and hides the
answer; `toggle_view_mode` hides the answer but leaves the cursor
unchanged. -/
theorem toggle_filter_and_view_mode_reset (s : FlashcardState) :
    (toggle_filter s).current_index = 0 ∧
    (toggle_filter s).show_answer = false ∧
    (toggle_view_mode s).show_answer = false ∧
    (toggle_view_mode s).current_index = s.current_index :=
  ⟨rfl, rfl, rfl, rfl⟩

/-- C3 (counterexample): `toggle_view_mode` clears only the index-based
`flipped_cards` list.  The word-based `flipped_words` list, which is the
collection the grid renderer consults, survives the transition: a card
whose word was flipped still renders flipped after the toggle. -/
theorem toggle_view_mode_flips_persist_cex :
    (toggle_view_mode { initState with flipped_words := ["cat"] }).flipped_words ≠ [] ∧
    grid_card_is_flipped (toggle_view_mode { initState with flipped_words := ["cat"] })
      cardCat = true := by
  constructor
  · decide
  · decide

/-- C3 (amended): on every view-mode transition the index-based
`flipped_cards` list is cleared, but the word-based `flipped_words` list
is left unchanged, and hence the flip state the grid view consults for
any card is unchanged. -/
theorem toggle_view_mode_flip_state (s : FlashcardState) :
    (toggle_view_mode s).flipped_cards = [] ∧
    (toggle_view_mode s).flipped_words = s.flipped_words ∧
    ∀ c : Card, grid_card_is_flipped (toggle_view_mode s) c = grid_card_is_flipped s c :=
  ⟨rfl, rfl, fun _ => rfl⟩

/-- C7: `add_flashcard` is a no-op when either stripped input is empty;
otherwise it appends exactly the one new card (stripped fields, not
learned) at the end of the deck; and every card of the resulting deck is
either a pre-existing card or has both required fields non-empty. -/
theorem add_flashcard_spec (s : FlashcardState) :
    ((stripStr s.new_english = "" ∨ stripStr s.new_vietnamese = "") → add_flashcard s = s) ∧
    (stripStr s.new_english ≠ "" → stripStr s.new_vietnamese ≠ "" →
      (add_flashcard s).flashcards =
        s.flashcards ++
          [{ english := stripStr s.new_english
             vietnamese := stripStr s.new_vietnamese
             learned := false }]) ∧
    (∀ c ∈ (add_flashcard s).flashcards,
      c ∈ s.flashcards ∨ (c.english ≠ "" ∧ c.vietnamese ≠ "")) := by
  by_cases hc : stripStr s.new_english ≠ "" ∧ stripStr s.new_vietnamese ≠ ""
  · refine ⟨fun h => ?_, fun _ _ => ?_, fun c hm => ?_⟩
    · rcases h with h | h
      · exact absurd h hc.1
      · exact absurd h hc.2
    · unfold add_flashcard
      rw [if_pos hc]
      unfold clampIndex
      split <;> rfl
    · have hm2 : c ∈ s.flashcards ++
          [{ english := stripStr s.new_english
             vietnamese := stripStr s.new_vietnamese
             learned := false : Card }] := by
        have he : (add_flashcard s).flashcards = s.flashcards ++
            [{ english := stripStr s.new_english
               vietnamese := stripStr s.new_vietnamese
               learned := false : Card }] := by
          unfold add_flashcard
          rw [if_pos hc]
          unfold clampIndex
          split <;> rfl
        rw [he] at hm
        exact hm
      rcases List.mem_append.mp hm2 with h | h
      · exact Or.inl h
      · have hx := List.mem_singleton.mp h
        subst hx
        exact Or.inr ⟨hc.1, hc.2⟩
  · have he : add_flashcard s = s := by
      unfold add_flashcard
      rw [if_neg hc]
    refine ⟨fun _ => he, fun h1 h2 => absurd ⟨h1, h2⟩ hc, fun c hm => ?_⟩
    rw [he] at hm
    exact Or.inl hm

/-- A sample state whose input buffers hold valid (stripped-non-empty)
new-card text. -/
def stateAdd : FlashcardState :=
  { initState with new_english := " cat ", new_vietnamese := " con meo " }

/-- C7 (witness): on a concrete state with inputs " cat " / " con meo ",
the appended card is exactly the stripped one. -/
theorem add_flashcard_spec_witness :
    (add_flashcard stateAdd).flashcards =
      stateAdd.flashcards ++
        [{ english := stripStr stateAdd.new_english
           vietnamese := stripStr stateAdd.new_vietnamese
           learned := false }] :=
  (add_flashcard_spec stateAdd).2.1 (by decide) (by decide)

/-- C9: a successful `add_flashcard` clears both input buffers; a
rejected one returns the state unchanged (every field, the cursor
included). -/
theorem add_flashcard_frame (s : FlashcardState) :
    (stripStr s.new_english ≠ "" → stripStr s.new_vietnamese ≠ "" →
      (add_flashcard s).new_english = "" ∧ (add_flashcard s).new_vietnamese = "") ∧
    ((stripStr s.new_english = "" ∨ stripStr s.new_vietnamese = "") → add_flashcard s = s) := by
  by_cases hc : stripStr s.new_english ≠ "" ∧ stripStr s.new_vietnamese ≠ ""
  · refine ⟨fun _ _ => ?_, fun h => ?_⟩
    · unfold add_flashcard
      rw [if_pos hc]
      unfold clampIndex
      constructor <;> (split <;> rfl)
    · rcases h with h | h
      · exact absurd h hc.1
      · exact absurd h hc.2
  · refine ⟨fun h1 h2 => absurd ⟨h1, h2⟩ hc, fun _ => ?_⟩
    unfold add_flashcard
    rw [if_neg hc]

/-- C9 (witness): on the concrete valid-input state the buffers are
cleared. -/
theorem add_flashcard_frame_witness :
    (add_flashcard stateAdd).new_english = "" ∧
    (add_flashcard stateAdd).new_vietnamese = "" :=
  (add_flashcard_frame stateAdd).1 (by decide) (by decide)

/-- C8: `current_card` returns `none` exactly on an empty projection,
the element at `current_index` when the cursor is in range, and element
0 as fallback when the cursor is at or past the length; in the latter
two cases the access is in bounds (the result exists). -/
theorem current_card_spec (s : FlashcardState) :
    (visible_flashcards s = [] → current_card s = none) ∧
    (0 ≤ s.current_index → s.current_index < ((visible_flashcards s).length : Int) →
      current_card s = (visible_flashcards s)[s.current_index.toNat]? ∧
      (current_card s).isSome = true) ∧
    (visible_flashcards s ≠ [] →
      ((visible_flashcards s).length : Int) ≤ s.current_index →
      current_card s = (visible_flashcards s)[0]? ∧
      (current_card s).isSome = true) := by
  refine ⟨fun h => ?_, fun h0 hlt => ?_, fun hne hge => ?_⟩
  · unfold current_card
    rw [if_pos h]
  · have hne : visible_flashcards s ≠ [] := by
      intro h
      rw [h] at hlt
      simp at hlt
      omega
    have hja : ¬ s.current_index ≥ ((visible_flashcards s).length : Int) := by omega
    have he : current_card s = (visible_flashcards s)[s.current_index.toNat]? := by
      unfold current_card
      rw [if_neg hne, if_neg hja]
      unfold pyGet
      rw [if_pos h0]
    refine ⟨he, ?_⟩
    rw [he]
    have hn : s.current_index.toNat < (visible_flashcards s).length := by omega
    rw [List.getElem?_eq_getElem hn]
    rfl
  · have he : current_card s = (visible_flashcards s)[0]? := by
      unfold current_card
      rw [if_neg hne, if_pos hge]
    refine ⟨he, ?_⟩
    rw [he]
    have hn : 0 < (visible_flashcards s).length := List.length_pos.mpr hne
    rw [List.getElem?_eq_getElem hn]
    rfl

/-- A sample state holding two cards with the cursor on the second one. -/
def stateTwo : FlashcardState :=
  { initState with flashcards := [cardCat, cardDog], current_index := 1 }

/-- C8 (witness): on a concrete two-card state with cursor 1,
`current_card` is the in-range element and exists. -/
theorem current_card_spec_witness :
    current_card stateTwo = (visible_flashcards stateTwo)[(stateTwo.current_index).toNat]? ∧
    (current_card stateTwo).isSome = true :=
  (current_card_spec stateTwo).2.1 (by decide) (by decide)

/-- Lower-casing a string preserves emptiness. -/
theorem lowerStr_eq_empty_iff (t : String) : lowerStr t = "" ↔ t = "" := by
  cases t with
  | mk d => simp [lowerStr, String.ext_iff]

/-- Membership in the projection coincides with membership in the
search stage: the optional final sort only permutes. -/
theorem mem_visible_iff_mem_searchStage (s : FlashcardState) (c : Card) :
    c ∈ visible_flashcards s ↔ c ∈ searchStage s := by
  unfold visible_flashcards
  by_cases hs : s.sort_alpha
  · rw [if_pos hs]
    exact (List.mergeSort_perm (searchStage s) englishLe).mem_iff
  · rw [if_neg hs]

/-- C5: under a non-empty stripped query, a card is in the projection
iff it passes the learned-filter stage and the lowered stripped query is
a substring of its lowered `english` or of its lowered `vietnamese`
field; under an empty stripped query the projection keeps exactly the
learned-filter stage. -/
theorem search_or_semantics (s : FlashcardState) (c : Card) :
    (stripStr s.search_query ≠ "" →
      (c ∈ visible_flashcards s ↔
        c ∈ filtered_flashcards s ∧
          (pyIn (lowerStr (stripStr s.search_query)) (lowerStr c.english) = true ∨
           pyIn (lowerStr (stripStr s.search_query)) (lowerStr c.vietnamese) = true))) ∧
    (stripStr s.search_query = "" →
      (c ∈ visible_flashcards s ↔ c ∈ filtered_flashcards s)) := by
  constructor
  · intro hq
    rw [mem_visible_iff_mem_searchStage]
    unfold searchStage
    have hq2 : lowerStr (stripStr s.search_query) ≠ "" := by
      intro h
      exact hq ((lowerStr_eq_empty_iff _).mp h)
    rw [if_pos hq2, List.mem_filter, Bool.or_eq_true]
  · intro hq
    rw [mem_visible_iff_mem_searchStage]
    unfold searchStage
    have hq2 : ¬ lowerStr (stripStr s.search_query) ≠ "" := by
      intro h
      exact h ((lowerStr_eq_empty_iff _).mpr hq)
    rw [if_neg hq2]

/-- A sample state with a padded upper-case query that matches the
`vietnamese` field of `cardCat` only. -/
def stateSearch : FlashcardState :=
  { initState with flashcards := [cardCat, cardDog], search_query := " MEO " }

/-- C5 (witness): on a concrete deck with query " MEO ", the membership
equivalence holds for `cardCat` (which indeed matches and is visible). -/
theorem search_or_semantics_witness :
    (cardCat ∈ visible_flashcards stateSearch ↔
      cardCat ∈ filtered_flashcards stateSearch ∧
        (pyIn (lowerStr (stripStr stateSearch.search_query)) (lowerStr cardCat.english) = true ∨
         pyIn (lowerStr (stripStr stateSearch.search_query)) (lowerStr cardCat.vietnamese) = true)) ∧
    cardCat ∈ visible_flashcards stateSearch :=
  ⟨(search_or_semantics stateSearch cardCat).1 (by decide), by decide⟩

/-- The two filter stages only select: their output is a subsequence of
the deck, in deck order. -/
theorem searchStage_sublist (s : FlashcardState) :
    (searchStage s).Sublist s.flashcards := by
  have h1 : (filtered_flashcards s).Sublist s.flashcards := by
    unfold filtered_flashcards
    split
    · exact List.filter_sublist _
    · exact List.Sublist.refl _
  unfold searchStage
  by_cases hq : lowerStr (stripStr s.search_query) ≠ ""
  · rw [if_pos hq]
    exact List.Sublist.trans (List.filter_sublist _) h1
  · rw [if_neg hq]
    exact h1

/-- The sort key order is transitive. -/
theorem englishLe_trans (a b c : Card) :
    englishLe a b = true → englishLe b c = true → englishLe a c = true := by
  simp only [englishLe, decide_eq_true_eq]
  exact le_trans

/-- The sort key order is total. -/
theorem englishLe_total (a b : Card) : (englishLe a b || englishLe b a) = true := by
  simp only [englishLe, Bool.or_eq_true, decide_eq_true_eq]
  exact le_total _ _

/-- C6: the projection pipeline is filter-by-learned, then
filter-by-search, then sort.  With `sort_alpha` off the projection is
exactly the filtered/searched stage, a subsequence of the deck in deck
order; with `sort_alpha` on it is a permutation of that same stage
(identical membership) and is sorted by the lower-cased `english` key. -/
theorem projection_pipeline (s : FlashcardState) :
    visible_flashcards { s with sort_alpha := false } = searchStage s ∧
    (searchStage s).Sublist s.flashcards ∧
    (visible_flashcards { s with sort_alpha := true }).Perm (searchStage s) ∧
    List.Sorted (fun a b => englishLe a b = true)
      (visible_flashcards { s with sort_alpha := true }) := by
  refine ⟨rfl, searchStage_sublist s, ?_, ?_⟩
  · exact List.mergeSort_perm (searchStage s) englishLe
  · exact List.sorted_mergeSort englishLe_trans englishLe_total (searchStage s)

/-- Whatever the cursor reconciliation does, the deck after
`remove_current_card` on current card `c` is the deck filtered to the
cards not structurally equal to `c`. -/
theorem remove_current_card_flashcards (s : FlashcardState) (c : Card)
    (h : current_card s = some c) :
    (remove_current_card s).flashcards =
      s.flashcards.filter (fun card => card != c) := by
  simp only [remove_current_card, h]
  split
  · unfold clampIndex
    split <;> rfl
  · rfl

/-- C1 (counterexample): on a deck holding two structurally equal cards,
removing the current card deletes both occurrences, while
first-occurrence deletion (`List.erase`) would keep the duplicate. -/
theorem remove_current_card_duplicates_cex :
    current_card { initState with flashcards := [cardCat, cardCat] } = some cardCat ∧
    (remove_current_card { initState with flashcards := [cardCat, cardCat] }).flashcards = [] ∧
    ({ initState with flashcards := [cardCat, cardCat] } :
        FlashcardState).flashcards.erase cardCat = [cardCat] := by
  refine ⟨by decide, ?_, by decide⟩
  rw [remove_current_card_flashcards _ cardCat (by decide)]
  decide

/-- C1 (amended): `remove_current_card` removes every card structurally
equal to the current card, not only the first occurrence: the resulting
deck keeps exactly the non-equal cards, in deck order, and no equal card
survives. -/
theorem remove_current_card_removes_all (s : FlashcardState) (c : Card)
    (h : current_card s = some c) :
    ((remove_current_card s).flashcards).Sublist s.flashcards ∧
    (∀ x : Card, x ∈ (remove_current_card s).flashcards ↔ x ∈ s.flashcards ∧ x ≠ c) ∧
    c ∉ (remove_current_card s).flashcards := by
  rw [remove_current_card_flashcards s c h]
  have hm : ∀ x : Card, x ∈ s.flashcards.filter (fun card => card != c) ↔
      x ∈ s.flashcards ∧ x ≠ c := by
    intro x
    rw [List.mem_filter, bne_iff_ne]
  refine ⟨List.filter_sublist _, hm, fun hc => ?_⟩
  exact ((hm c).mp hc).2 rfl

/-- A one-card state used to witness the amended removal theorem. -/
def stateOne : FlashcardState := { initState with flashcards := [cardCat] }

/-- C1 (witness): removing the current card of the concrete one-card
state leaves no card equal to it. -/
theorem remove_current_card_removes_all_witness :
    cardCat ∉ (remove_current_card stateOne).flashcards :=
  (remove_current_card_removes_all stateOne cardCat (by decide)).2.2

/-- A successful Python index access returns an element of the list. -/
theorem pyGet_mem {α : Type} {l : List α} {i : Int} {x : α}
    (h : pyGet l i = some x) : x ∈ l := by
  unfold pyGet at h
  split at h
  · obtain ⟨hlt, he⟩ := List.getElem?_eq_some.mp h
    exact he ▸ List.getElem_mem hlt
  · split at h
    · obtain ⟨hlt, he⟩ := List.getElem?_eq_some.mp h
      exact he ▸ List.getElem_mem hlt
    · exact absurd h (by simp)

/-- The current card, when it exists, is an element of the projection. -/
theorem current_card_mem {s : FlashcardState} {c : Card}
    (h : current_card s = some c) : c ∈ visible_flashcards s := by
  simp only [current_card] at h
  split at h
  · exact absurd h (by simp)
  · split at h
    · obtain ⟨hlt, he⟩ := List.getElem?_eq_some.mp h
      exact he ▸ List.getElem_mem hlt
    · exact pyGet_mem h

/-- Every card of the projection is a card of the deck. -/
theorem mem_visible_mem_deck {s : FlashcardState} {c : Card}
    (h : c ∈ visible_flashcards s) : c ∈ s.flashcards :=
  (searchStage_sublist s).subset ((mem_visible_iff_mem_searchStage s c).mp h)

/-- `toggleFirst` never changes the length of the deck. -/
theorem toggleFirst_length (l : List Card) (c : Card) :
    (toggleFirst l c).length = l.length := by
  induction l with
  | nil => rfl
  | cons x xs ih =>
    unfold toggleFirst
    split
    · rfl
    · simp only [List.length_cons, ih]

/-- When `c` occurs in `l`, `toggleFirst l c` rewrites the first
occurrence (and only it) to the learned-negated card. -/
theorem toggleFirst_eq_set (l : List Card) (c : Card) (h : c ∈ l) :
    ∃ i, l[i]? = some c ∧ (∀ j, j < i → l[j]? ≠ some c) ∧
      toggleFirst l c =
        l.set i { english := c.english, vietnamese := c.vietnamese, learned := !c.learned } := by
  induction l with
  | nil => cases h
  | cons x xs ih =>
    by_cases hx : x = c
    · refine ⟨0, by simp [hx], fun j hj => absurd hj (by omega), ?_⟩
      unfold toggleFirst
      rw [if_pos hx, hx]
      rfl
    · have hc : c ∈ xs := by
        rcases List.mem_cons.mp h with h1 | h1
        · exact absurd h1.symm hx
        · exact h1
      obtain ⟨i, h1, h2, h3⟩ := ih hc
      refine ⟨i + 1, by simpa using h1, fun j hj => ?_, ?_⟩
      · match j with
        | 0 =>
          simp only [List.getElem?_cons_zero]
          intro he
          exact hx (Option.some.injEq _ _ ▸ he)
        | j + 1 =>
          rw [List.getElem?_cons_succ]
          exact h2 j (by omega)
      · unfold toggleFirst
        rw [if_neg hx, h3]
        rfl

/-- C10: `toggle_learned` always preserves the deck length; on an empty
projection it is the identity; and when a current card exists it
replaces exactly the first structurally equal occurrence in the deck by
the same card with its `learned` flag negated, leaving every other
position (later duplicates included) untouched. -/
theorem toggle_learned_spec (s : FlashcardState) :
    (toggle_learned s).flashcards.length = s.flashcards.length ∧
    (visible_flashcards s = [] → toggle_learned s = s) ∧
    (∀ c : Card, current_card s = some c →
      ∃ i, s.flashcards[i]? = some c ∧ (∀ j, j < i → s.flashcards[j]? ≠ some c) ∧
        (toggle_learned s).flashcards =
          s.flashcards.set i
            { english := c.english, vietnamese := c.vietnamese, learned := !c.learned }) := by
  refine ⟨?_, fun hv => ?_, fun c hc => ?_⟩
  · unfold toggle_learned
    split
    · rfl
    · exact toggleFirst_length _ _
  · unfold toggle_learned
    have hn : current_card s = none := by
      unfold current_card
      rw [if_pos hv]
    rw [hn]
  · have hm : c ∈ s.flashcards := mem_visible_mem_deck (current_card_mem hc)
    obtain ⟨i, h1, h2, h3⟩ := toggleFirst_eq_set s.flashcards c hm
    refine ⟨i, h1, h2, ?_⟩
    unfold toggle_learned
    rw [hc]
    exact h3

/-- C10 (witness): on a concrete deck `[cat, cat, dog]` the toggle
rewrites index 0 only. -/
theorem toggle_learned_spec_witness :
    ∃ i, ({ initState with flashcards := [cardCat, cardCat, cardDog] } :
        FlashcardState).flashcards[i]? = some cardCat ∧
      (∀ j, j < i →
        ({ initState with flashcards := [cardCat, cardCat, cardDog] } :
          FlashcardState).flashcards[j]? ≠ some cardCat) ∧
      (toggle_learned { initState with flashcards := [cardCat, cardCat, cardDog] }).flashcards =
        ({ initState with flashcards := [cardCat, cardCat, cardDog] } :
          FlashcardState).flashcards.set i
          { english := cardCat.english, vietnamese := cardCat.vietnamese,
            learned := !cardCat.learned } :=
  (toggle_learned_spec { initState with flashcards := [cardCat, cardCat, cardDog] }).2.2
    cardCat (by decide)

/-- The cursor-bounds invariant P5: a non-empty projection has the
cursor strictly inside it, an empty projection has the cursor at 0. -/
def cursorInv (s : FlashcardState) : Prop :=
  (visible_flashcards s ≠ [] →
    0 ≤ s.current_index ∧ s.current_index < ((visible_flashcards s).length : Int)) ∧
  (visible_flashcards s = [] → s.current_index = 0)

/-- The invariant keeps the cursor non-negative. -/
theorem cursorInv_nonneg {s : FlashcardState} (h : cursorInv s) :
    0 ≤ s.current_index := by
  by_cases hv : visible_flashcards s = []
  · rw [h.2 hv]
  · exact (h.1 hv).1

/-- The clamp step establishes the invariant from a non-negative cursor
alone. -/
theorem clampIndex_cursorInv (t : FlashcardState) (h0 : 0 ≤ t.current_index) :
    cursorInv (clampIndex t) := by
  unfold clampIndex
  by_cases hge : t.current_index ≥ ((visible_flashcards t).length : Int)
  · rw [if_pos hge]
    constructor
    · intro hne
      have hne2 : visible_flashcards t ≠ [] := hne
      have hp : 0 < (visible_flashcards t).length := List.length_pos.mpr hne2
      show (0 : Int) ≤ max 0 (((visible_flashcards t).length : Int) - 1) ∧
        max 0 (((visible_flashcards t).length : Int) - 1) <
          ((visible_flashcards t).length : Int)
      rw [max_eq_right (by omega : (0 : Int) ≤ ((visible_flashcards t).length : Int) - 1)]
      omega
    · intro he
      have he2 : visible_flashcards t = [] := he
      show max 0 (((visible_flashcards t).length : Int) - 1) = 0
      rw [he2]
      decide
  · rw [if_neg hge]
    constructor
    · intro _
      exact ⟨h0, by omega⟩
    · intro he
      exfalso
      have hl : (visible_flashcards t).length = 0 := by simp [he]
      omega

/-- `add_flashcard` preserves the cursor-bounds invariant. -/
theorem add_flashcard_cursorInv {s : FlashcardState} (h : cursorInv s) :
    cursorInv (add_flashcard s) := by
  have h0 : (0 : Int) ≤ s.current_index := cursorInv_nonneg h
  unfold add_flashcard
  split
  · exact clampIndex_cursorInv _ h0
  · exact h

/-- `remove_current_card` preserves the cursor-bounds invariant. -/
theorem remove_current_card_cursorInv {s : FlashcardState} (h : cursorInv s) :
    cursorInv (remove_current_card s) := by
  have h0 : (0 : Int) ≤ s.current_index := cursorInv_nonneg h
  cases hc : current_card s with
  | none =>
    simp only [remove_current_card, hc]
    exact h
  | some c =>
    simp only [remove_current_card, hc]
    split
    · exact clampIndex_cursorInv _ h0
    · rename_i hv
      have hv2 := not_not.mp hv
      constructor
      · intro hne
        exact absurd hv2 hne
      · intro _
        rfl

/-- `toggle_filter` establishes the cursor-bounds invariant outright. -/
theorem toggle_filter_cursorInv (s : FlashcardState) :
    cursorInv (toggle_filter s) := by
  constructor
  · intro hne
    have hp : 0 < (visible_flashcards (toggle_filter s)).length := List.length_pos.mpr hne
    refine ⟨le_refl 0, ?_⟩
    show (0 : Int) < ((visible_flashcards (toggle_filter s)).length : Int)
    omega
  · intro _
    rfl

/-- An operation of the C4 sequence: an add (with the text typed into
the two input buffers), a removal of the current card, or a toggle of
the learned filter. -/
inductive FlashOp where
  | add (e v : String)
  | remove
  | toggleFilter

/-- Run one operation: an add types the given texts into the buffers and
invokes `add_flashcard`; the other two invoke their handler directly. -/
def applyOp (op : FlashOp) (s : FlashcardState) : FlashcardState :=
  match op with
  | .add e v => add_flashcard { s with new_english := e, new_vietnamese := v }
  | .remove => remove_current_card s
  | .toggleFilter => toggle_filter s

/-- Run a finite sequence of operations from a state. -/
def applyOps (ops : List FlashOp) (s : FlashcardState) : FlashcardState :=
  match ops with
  | [] => s
  | op :: rest => applyOps rest (applyOp op s)

/-- Any operation sequence preserves the cursor-bounds invariant. -/
theorem applyOps_cursorInv (ops : List FlashOp) :
    ∀ s : FlashcardState, cursorInv s → cursorInv (applyOps ops s) := by
  induction ops with
  | nil => exact fun _ h => h
  | cons op rest ih =>
    intro s h
    refine ih _ ?_
    match op with
    | .add e v => exact add_flashcard_cursorInv h
    | .remove => exact remove_current_card_cursorInv h
    | .toggleFilter => exact toggle_filter_cursorInv s

/-- The initial state satisfies the cursor-bounds invariant. -/
theorem initState_cursorInv : cursorInv initState := by
  constructor
  · intro h
    exact absurd rfl h
  · intro _
    rfl

/-- C4: starting from the initial state, after any finite sequence of
add, remove-current and filter-toggle operations, a non-empty projection
has `0 <= current_index < length` and an empty projection has
`current_index = 0`. -/
theorem cursor_bounds (ops : List FlashOp) :
    (visible_flashcards (applyOps ops initState) ≠ [] →
      0 ≤ (applyOps ops initState).current_index ∧
      (applyOps ops initState).current_index <
        ((visible_flashcards (applyOps ops initState)).length : Int)) ∧
    (visible_flashcards (applyOps ops initState) = [] →
      (applyOps ops initState).current_index = 0) :=
  applyOps_cursorInv ops initState initState_cursorInv

/-- C4 (witness): after one concrete add from the initial state, the
projection is non-empty and the cursor sits strictly inside it. -/
theorem cursor_bounds_witness :
    0 ≤ (applyOps [FlashOp.add "cat" "con meo"] initState).current_index ∧
    (applyOps [FlashOp.add "cat" "con meo"] initState).current_index <
      ((visible_flashcards (applyOps [FlashOp.add "cat" "con meo"] initState)).length : Int) :=
  (cursor_bounds [FlashOp.add "cat" "con meo"]).1 (by decide)
